import Mathlib

/-!
Shallow embedding of the livemd Watch Hub: the registry operations of
`server.go` (`Hub.AddFileWithActive`, `Hub.ActivateFile`,
`Hub.RemoveDeletedFiles`, the watcher callbacks bound by `Hub.startWatcher`,
and the `Hub.Run` broadcast loop), the debounced `Watcher` of `watcher.go`,
and the log entries of `logger.go`. Go maps are association lists in
iteration order; machine time is `Nat`; the renderer and `os.Stat` are
parameters of an `Env`.
-/

/-- A log entry: timestamp, severity level, message (`logger.go`, `LogEntry`). -/
structure LogEntry where
  time : Nat
  level : String
  message : String
deriving DecidableEq, Repr

/-- One registered file (`server.go`, `WatchedFile`): path, display name,
registration time, last observed change time, rendered HTML, and the two
lifecycle booleans `Active` (live filesystem subscription) and `Deleted`
(file vanished from disk). -/
structure WatchedFile where
  path : String
  name : String
  trackTime : Nat
  lastChange : Nat
  html : String
  active : Bool
  deleted : Bool
deriving DecidableEq, Repr

/-- A WebSocket push message (`server.go`, `Message`), one constructor per
`type` tag: full file list, single-entry update, single-entry removal, one
log append, full log replay. -/
inductive Msg where
  | files (fs : List WatchedFile)
  | update (f : WatchedFile)
  | removed (p : String)
  | logOne (e : LogEntry)
  | logAll (es : List LogEntry)
deriving DecidableEq, Repr

/-- Registry state guarded by the hub mutex: the `files` map (association
list in iteration order; keys are unique, Go map semantics) and the
`watchers` map (the set of paths holding a live `Watcher`). -/
structure RegState where
  files : List (String × WatchedFile)
  watchers : List String
deriving DecidableEq, Repr

/-- External effects used by registry operations: the `os.Stat` modification
time (`none` models a stat error), the renderer
`render(path) -> (html, error)`, and the current clock reading. -/
structure Env where
  statMod : String → Option Nat
  render : String → Except String String
  now : Nat

/-- ASCII case folding of one character code, used to model case-insensitive
path comparison. -/
def foldChar (c : Char) : Nat :=
  if 65 ≤ c.toNat ∧ c.toNat ≤ 90 then c.toNat + 32 else c.toNat

/-- Modelled from the spec: `PathsEqual` is called by the hub but its
definition is not among the source files. Per the spec it is a
"case-insensitive equality check on platforms whose filesystem is
case-insensitive; case-sensitive elsewhere — this is a single global policy,
not per-entry"; the global platform policy is the `ci` flag. -/
def pathsEqual (ci : Bool) (a b : String) : Bool :=
  if ci then a.data.map foldChar = b.data.map foldChar else a = b

/-- The Go `filepath.Base` on slash-separated paths: the last path segment. -/
def baseNameAux : List Char → List Char → List Char
  | [], acc => acc
  | c :: cs, acc => if c = '/' then baseNameAux cs [] else baseNameAux cs (acc ++ [c])

/-- Display name of a path (`filepath.Base`). -/
def baseName (p : String) : String := String.mk (baseNameAux p.data [])

/-- Exact-key lookup in the files map (Go `h.files[path]`). -/
def lookupFile (st : RegState) (p : String) : Option WatchedFile :=
  (st.files.find? (fun kv => kv.1 = p)).map (fun kv => kv.2)

/-- The first entry matching the case rule (Go
`for existingPath, f := range h.files { if PathsEqual(existingPath, path) }`). -/
def findByRule (ci : Bool) (st : RegState) (p : String) : Option (String × WatchedFile) :=
  st.files.find? (fun kv => pathsEqual ci kv.1 p)

/-- In-place update of the entry stored under exact key `p` (Go mutates the
`*WatchedFile` held by the map; keys are unique). -/
def updateEntry (l : List (String × WatchedFile)) (p : String) (f : WatchedFile) :
    List (String × WatchedFile) :=
  l.map (fun kv => if kv.1 = p then (p, f) else kv)

/-- Snapshot of the map values, as read by `broadcastFileList`,
`sendFileList` and `GetFiles`. -/
def fileList (st : RegState) : List WatchedFile := st.files.map (fun kv => kv.2)

/-- Registry effect of `Hub.startWatcher`: create and store a watcher unless
one already exists for the path. The bodies of the two callbacks it binds are
modelled separately as `onFileChanged` and `onFileDeleted`. -/
def startWatcherReg (st : RegState) (p : String) : RegState :=
  if p ∈ st.watchers then st else { st with watchers := st.watchers ++ [p] }

/-- Result of a registry API call: the error returned (Go `error`), the
registry state after the call, and the messages pushed onto the broadcast
channel (log broadcasts emitted through `Logger.add` included, in order). -/
structure OpResult where
  err : Option String
  st : RegState
  msgs : List Msg
deriving DecidableEq, Repr

/-- `Hub.AddFileWithActive`: reject a `PathsEqual` duplicate, stat the file,
render it, insert the entry (`Active` as requested, `Deleted` false), start a
watcher when active, log, and broadcast the file list. Every error path
returns before the map is touched. -/
def addFileWithActive (ci : Bool) (env : Env) (st : RegState) (path : String)
    (active : Bool) : OpResult :=
  match findByRule ci st path with
  | some kv => { err := some ("already registered: " ++ baseName kv.1), st := st, msgs := [] }
  | none =>
    match env.statMod path with
    | none => { err := some ("stat error: " ++ path), st := st, msgs := [] }
    | some modTime =>
      match env.render path with
      | Except.error e => { err := some e, st := st, msgs := [] }
      | Except.ok html =>
        let file : WatchedFile :=
          { path := path, name := baseName path, trackTime := env.now,
            lastChange := modTime, html := html, active := active, deleted := false }
        let st1 : RegState := { st with files := st.files ++ [(path, file)] }
        let st2 := if active then startWatcherReg st1 path else st1
        let note := if active then "Started watching: " ++ baseName path
                    else "Registered: " ++ baseName path
        { err := none, st := st2,
          msgs := [Msg.logOne { time := env.now, level := "info", message := note },
                   Msg.files (fileList st2)] }

/-- Result of a watcher callback into the hub: registry state afterwards, the
messages pushed onto the broadcast channel, and whether the renderer was
invoked. -/
structure CbResult where
  st : RegState
  msgs : List Msg
  rendered : Bool
deriving DecidableEq, Repr

/-- The onChange closure bound by `Hub.startWatcher`: return at once when the
entry is gone or not `Active`; render (an error is logged and leaves the entry
untouched); otherwise write back the html and modification time, clear
`Deleted` (the file is back if it was marked deleted), log, and broadcast one
single-entry update. The Go code ignores the `os.Stat` error here
(`info, _ := os.Stat(path)`); a failed stat is modelled as modification
time 0. -/
def onFileChanged (env : Env) (st : RegState) (path : String) : CbResult :=
  match lookupFile st path with
  | none => { st := st, msgs := [], rendered := false }
  | some f =>
    if f.active = false then { st := st, msgs := [], rendered := false }
    else
      match env.render path with
      | Except.error e =>
        { st := st,
          msgs := [Msg.logOne
            { time := env.now, level := "error",
              message := "Error rendering " ++ baseName path ++ ": " ++ e }],
          rendered := true }
      | Except.ok html =>
        let f1 : WatchedFile :=
          { f with
            html := html, lastChange := (env.statMod path).getD 0,
            deleted := false }
        let st1 : RegState := { st with files := updateEntry st.files path f1 }
        { st := st1,
          msgs := [Msg.logOne
            { time := env.now, level := "info",
              message := "File changed: " ++ baseName path },
            Msg.update f1],
          rendered := true }

/-- The onDelete closure bound by `Hub.startWatcher`: if the entry still
exists, mark it `Deleted` and inactive, log a warning and broadcast the full
file list. The `watchers` map entry for the path is not removed and the
`Watcher` is not closed. -/
def onFileDeleted (env : Env) (st : RegState) (path : String) : CbResult :=
  match lookupFile st path with
  | none => { st := st, msgs := [], rendered := false }
  | some f =>
    let f1 : WatchedFile := { f with deleted := true, active := false }
    let st1 : RegState := { st with files := updateEntry st.files path f1 }
    { st := st1,
      msgs := [Msg.logOne
        { time := env.now, level := "warn",
          message := "File deleted: " ++ baseName path },
        Msg.files (fileList st1)],
      rendered := false }

/-- `Hub.ActivateFile`: find the entry by the case rule; error when absent;
no-op success when already `Active`; otherwise re-render (failure aborts with
the entry unchanged), write back html and modification time, set `Active`,
start a watcher, log, and broadcast the file list. The `Deleted` flag is
neither examined nor cleared. -/
def activateFile (ci : Bool) (env : Env) (st : RegState) (path : String) : OpResult :=
  match findByRule ci st path with
  | none => { err := some ("file not registered: " ++ path), st := st, msgs := [] }
  | some kv =>
    if kv.2.active then { err := none, st := st, msgs := [] }
    else
      match env.render kv.1 with
      | Except.error e => { err := some e, st := st, msgs := [] }
      | Except.ok html =>
        let f1 : WatchedFile :=
          { kv.2 with
            html := html, lastChange := (env.statMod kv.1).getD 0,
            active := true }
        let st1 : RegState := { st with files := updateEntry st.files kv.1 f1 }
        let st2 := startWatcherReg st1 kv.1
        { err := none, st := st2,
          msgs := [Msg.logOne
            { time := env.now, level := "info",
              message := "Activated watching: " ++ baseName kv.1 },
            Msg.files (fileList st2)] }

/-- Result of `Hub.RemoveDeletedFiles`: the returned count, the registry
afterwards, and the broadcast messages. -/
structure RemoveDeletedResult where
  count : Nat
  st : RegState
  msgs : List Msg
deriving DecidableEq, Repr

/-- `Hub.RemoveDeletedFiles`: collect the paths of entries marked `Deleted`,
close and drop their watchers, delete the entries (per-key deletion over
unique keys, written as a filter), and, only when at least one entry was
removed, log and broadcast one file list. Returns the number removed. -/
def removeDeletedFiles (env : Env) (st : RegState) : RemoveDeletedResult :=
  let toRemove := (st.files.filter (fun kv => kv.2.deleted)).map (fun kv => kv.1)
  let st1 : RegState :=
    { files := st.files.filter (fun kv => kv.2.deleted = false),
      watchers := st.watchers.filter (fun q => decide (q ∉ toRemove)) }
  if toRemove.length = 0 then { count := 0, st := st1, msgs := [] }
  else
    { count := toRemove.length, st := st1,
      msgs := [Msg.logOne
        { time := env.now, level := "info",
          message := "Removed " ++ toString toRemove.length ++ " deleted file(s)" },
        Msg.files (fileList st1)] }

/-- Raw inputs to one `Watcher` (`watcher.go`): an fsnotify write event, an
fsnotify remove event together with whether the file exists again at the
300 ms grace re-check, the 100 ms debounce timer elapsing, and `Close`. -/
inductive WEvent where
  | rawWrite
  | rawRemove (existsAfterGrace : Bool)
  | timerElapse
  | doClose
deriving DecidableEq, Repr

/-- Callback invocations a `Watcher` can emit. -/
inductive WFire where
  | change
  | delete
deriving DecidableEq, Repr

/-- State of one `Watcher`: whether `Close` ran (the `done` channel and the
fsnotify watcher are closed), whether a debounce timer is pending, and
whether the path is subscribed. -/
structure WState where
  closed : Bool
  pending : Bool
  subscribed : Bool
deriving DecidableEq, Repr

/-- One step of the watcher (the event-loop goroutine, `debounce`, and
`Close`). After `Close` the loop has returned, so raw events are not
processed; but `Close` does not stop the timer set by `debounce`, so
`timerElapse` fires its callback regardless of `closed`. A remove event whose
grace re-check finds the file again re-adds the subscription and debounces a
change; one that does not invokes the delete callback directly. A write event
restarts the debounce timer. The Remove handler (grace sleep, re-check,
callback) is modelled as one atomic step, which is faithful while no `Close`
interleaves, since the sleep blocks the single event-loop goroutine; the
refined machine `wStep2` below splits it so `Close` can land inside the
sleep. -/
def wStep (s : WState) : WEvent → WState × List WFire
  | WEvent.rawWrite =>
    if s.closed then (s, []) else ({ s with pending := true }, [])
  | WEvent.rawRemove ex =>
    if s.closed then (s, [])
    else if ex then ({ s with subscribed := true, pending := true }, [])
    else (s, [WFire.delete])
  | WEvent.timerElapse =>
    if s.pending then ({ s with pending := false }, [WFire.change]) else (s, [])
  | WEvent.doClose => ({ s with closed := true, subscribed := false }, [])

/-- Run the watcher over a sequence of events, collecting callback fires in
order. -/
def wRun (s : WState) : List WEvent → WState × List WFire
  | [] => (s, [])
  | e :: es =>
    let r1 := wStep s e
    let r2 := wRun r1.1 es
    (r2.1, r1.2 ++ r2.2)

/-- Inputs to the refined watcher machine, which splits the Remove handler of
`Watcher.Watch` into two events so that `Close` can interleave with the 300 ms
grace sleep running inside the handler: `rawRemoveStart` is the event-loop
goroutine receiving a Remove notification and entering `time.Sleep`;
`graceElapse existsNow` is the sleep ending, with the outcome of the
`os.Stat` existence re-check. -/
inductive WEvent2 where
  | rawWrite
  | rawRemoveStart
  | graceElapse (existsNow : Bool)
  | timerElapse
  | doClose
deriving DecidableEq, Repr

/-- State of one `Watcher` in the refined machine: `closed`, `pending` and
`subscribed` as in `WState`, plus `inRemove`: the event-loop goroutine is
inside the Remove handler's 300 ms grace sleep. -/
structure WState2 where
  closed : Bool
  pending : Bool
  subscribed : Bool
  inRemove : Bool
deriving DecidableEq, Repr

/-- One step of the refined watcher. Raw notifications are processed only
when the loop is neither returned (`closed`) nor asleep inside the Remove
handler (`inRemove`); a Remove notification only starts the grace sleep.
When the sleep ends (`graceElapse`) the handler runs unconditionally — the Go
code checks nothing after `time.Sleep`, in particular not `done` — so even
after `Close` it fires the on-delete callback (file absent) or re-adds the
path and arms a fresh debounce timer (file back; the re-Add on an
already-closed fsnotify watcher fails and is ignored, so `subscribed` stays
put in that case). The debounce timer runs on its own goroutine, so
`timerElapse` fires regardless of `closed` and `inRemove`; `Close` stops
neither the timer nor the sleeping handler. -/
def wStep2 (s : WState2) : WEvent2 → WState2 × List WFire
  | WEvent2.rawWrite =>
    if s.closed || s.inRemove then (s, []) else ({ s with pending := true }, [])
  | WEvent2.rawRemoveStart =>
    if s.closed || s.inRemove then (s, []) else ({ s with inRemove := true }, [])
  | WEvent2.graceElapse b =>
    if s.inRemove then
      if b then
        ({ s with
            inRemove := false, pending := true,
            subscribed := if s.closed then s.subscribed else true }, [])
      else ({ s with inRemove := false }, [WFire.delete])
    else (s, [])
  | WEvent2.timerElapse =>
    if s.pending then ({ s with pending := false }, [WFire.change]) else (s, [])
  | WEvent2.doClose => ({ s with closed := true, subscribed := false }, [])

/-- Run the refined watcher over a sequence of events, collecting callback
fires in order. -/
def wRun2 (s : WState2) : List WEvent2 → WState2 × List WFire
  | [] => (s, [])
  | e :: es =>
    let r1 := wStep2 s e
    let r2 := wRun2 r1.1 es
    (r2.1, r1.2 ++ r2.2)

/-- One connected viewer session (`server.go`, `Client`): identity, the
contents of the outbound `send` queue, the queue capacity (the Go buffered
channel size, 256), and whether the queue was closed. -/
structure Session where
  sid : Nat
  queue : List Msg
  cap : Nat
  closedQ : Bool
deriving DecidableEq, Repr

/-- The broadcast case of `Hub.Run`: a non-blocking send of the message to
every session; a session whose queue is full is closed and removed from the
set instead of blocking the others. Returns the kept sessions and the dropped
ones. -/
def publishStep (m : Msg) : List Session → List Session × List Session
  | [] => ([], [])
  | s :: rest =>
    let r := publishStep m rest
    if s.queue.length < s.cap then
      ({ s with queue := s.queue ++ [m] } :: r.1, r.2)
    else
      (r.1, { s with closedQ := true } :: r.2)

/-- Publish a sequence of messages in order, dropping sessions as their
queues fill. -/
def publishAll (ss : List Session) : List Msg → List Session
  | [] => ss
  | m :: ms => publishAll (publishStep m ss).1 ms

/-- Requests processed sequentially by the single `Hub.Run` goroutine. -/
inductive HReq where
  | join (sid cp : Nat)
  | leave (sid : Nat)
  | publish (m : Msg)
deriving DecidableEq, Repr

/-- One iteration of `Hub.Run`, given the registry file list and log history
that `sendFileList` would read at this instant. On register the new client
(fresh empty queue) is added to the set and immediately sent the file list
then the log history (two blocking sends, modelled as appends); on unregister
the client is removed and its queue closed; broadcast is `publishStep`. -/
def hubStep (files : List WatchedFile) (logs : List LogEntry) (ss : List Session) :
    HReq → List Session
  | HReq.join sid cp =>
    ss ++ [{ sid := sid, queue := [Msg.files files, Msg.logAll logs],
             cap := cp, closedQ := false }]
  | HReq.leave sid => ss.filter (fun s => s.sid ≠ sid)
  | HReq.publish m => (publishStep m ss).1

/-- Run the hub loop over a request sequence (registry and log snapshots held
fixed across the run). -/
def hubRun (files : List WatchedFile) (logs : List LogEntry) (ss : List Session) :
    List HReq → List Session
  | [] => ss
  | r :: rs => hubRun files logs (hubStep files logs ss r) rs

/-- True exactly for a full file-list message. -/
def isFilesMsg : Msg → Bool
  | Msg.files _ => true
  | _ => false

/-- True exactly for a single-entry update message. -/
def isUpdateMsg : Msg → Bool
  | Msg.update _ => true
  | _ => false

/-- Sample environment for concrete runs: every stat succeeds with
modification time 5, every render succeeds. -/
def envOk : Env :=
  { statMod := fun _ => some 5,
    render := fun p => Except.ok ("<p>" ++ p ++ "</p>"), now := 7 }

/-- Sample environment whose renderer always fails. -/
def envBad : Env :=
  { statMod := fun _ => some 5,
    render := fun _ => Except.error "render failed", now := 7 }

/-- Sample entry already registered under a differently-cased path. -/
def wfUpper : WatchedFile :=
  { path := "A.md", name := "A.md", trackTime := 1, lastChange := 2,
    html := "<p>old</p>", active := false, deleted := false }

/-- Sample one-entry registry holding `wfUpper`. -/
def stUpper : RegState := { files := [("A.md", wfUpper)], watchers := [] }

/-- Sample entry in `Active` state with a live watcher. -/
def wfActive : WatchedFile :=
  { path := "a.md", name := "a.md", trackTime := 1, lastChange := 2,
    html := "<p>keep</p>", active := true, deleted := false }

/-- Sample registry holding `wfActive` with its watcher. -/
def stActive : RegState := { files := [("a.md", wfActive)], watchers := ["a.md"] }

/-- Sample entry in `Deleted` state (content frozen at the last render). -/
def wfDeleted : WatchedFile :=
  { path := "d.md", name := "d.md", trackTime := 1, lastChange := 2,
    html := "<p>last</p>", active := false, deleted := true }

/-- Sample registry holding `wfDeleted` plus the live entry `wfActive`. -/
def stDeleted : RegState :=
  { files := [("d.md", wfDeleted), ("a.md", wfActive)], watchers := ["d.md", "a.md"] }

/-- Sample session whose bounded queue is already full. -/
def sessFull : Session :=
  { sid := 1, queue := [Msg.removed "x"], cap := 1, closedQ := false }

/-- Sample session with room in its queue. -/
def sessOk : Session := { sid := 2, queue := [], cap := 8, closedQ := false }

/-- Sample broadcast message. -/
def m0 : Msg := Msg.removed "x0"

/-- Another sample broadcast message. -/
def m1 : Msg := Msg.removed "x1"

theorem pathsEqual_refl (ci : Bool) (p : String) : pathsEqual ci p p = true := by
  cases ci <;> simp [pathsEqual]

theorem startWatcherReg_files (st : RegState) (p : String) :
    (startWatcherReg st p).files = st.files := by
  unfold startWatcherReg
  split <;> rfl

theorem addFileWithActive_of_found (ci : Bool) (env : Env) (st : RegState)
    (p : String) (a : Bool) (kv : String × WatchedFile)
    (h : findByRule ci st p = some kv) :
    addFileWithActive ci env st p a =
      { err := some ("already registered: " ++ baseName kv.1), st := st, msgs := [] } := by
  unfold addFileWithActive
  rw [h]

theorem addFileWithActive_err_none_inv (ci : Bool) (env : Env) (st : RegState)
    (p : String) (a : Bool) (h : (addFileWithActive ci env st p a).err = none) :
    findByRule ci st p = none ∧
    ∃ m html, env.statMod p = some m ∧ env.render p = Except.ok html := by
  unfold addFileWithActive at h
  cases hf : findByRule ci st p with
  | some kv => rw [hf] at h; simp at h
  | none =>
    rw [hf] at h
    refine ⟨rfl, ?_⟩
    cases hs : env.statMod p with
    | none => rw [hs] at h; simp at h
    | some m =>
      rw [hs] at h
      cases hr : env.render p with
      | error e => rw [hr] at h; simp at h
      | ok html => exact ⟨m, html, rfl, rfl⟩

theorem addFileWithActive_ok (ci : Bool) (env : Env) (st : RegState) (p : String)
    (a : Bool) (m : Nat) (html : String) (hf : findByRule ci st p = none)
    (hs : env.statMod p = some m) (hr : env.render p = Except.ok html) :
    (addFileWithActive ci env st p a).err = none ∧
    (addFileWithActive ci env st p a).st.files =
      st.files ++ [(p,
        { path := p, name := baseName p, trackTime := env.now,
          lastChange := m, html := html, active := a, deleted := false })] := by
  unfold addFileWithActive
  rw [hf, hs, hr]
  refine ⟨rfl, ?_⟩
  cases a <;> simp [startWatcherReg_files]

theorem addFileWithActive_frame_of_err (ci : Bool) (env : Env) (st : RegState)
    (p : String) (a : Bool) (h : (addFileWithActive ci env st p a).err ≠ none) :
    (addFileWithActive ci env st p a).st = st ∧
    (addFileWithActive ci env st p a).msgs = [] := by
  cases hf : findByRule ci st p with
  | some kv => rw [addFileWithActive_of_found ci env st p a kv hf]; exact ⟨rfl, rfl⟩
  | none =>
    cases hs : env.statMod p with
    | none => unfold addFileWithActive; rw [hf, hs]; exact ⟨rfl, rfl⟩
    | some m =>
      cases hr : env.render p with
      | error e => unfold addFileWithActive; rw [hf, hs, hr]; exact ⟨rfl, rfl⟩
      | ok html => exact absurd (addFileWithActive_ok ci env st p a m html hf hs hr).1 h

/-- C1: a register through `Hub.AddFileWithActive` fails with an
"already registered" error when an entry whose path equals the argument under
the case rule (`PathsEqual`) already exists; registering the same path twice
in a row fails the second call; and whenever register fails for any reason
(duplicate, stat error, or renderer error) the registry state is unchanged
and nothing is broadcast (no partial state). -/
theorem c1_register_duplicate_rejected_and_atomic (ci : Bool) (env : Env)
    (st : RegState) (p : String) (a b : Bool) :
    ((∃ kv ∈ st.files, pathsEqual ci kv.1 p = true) →
      ∃ n, (addFileWithActive ci env st p a).err = some ("already registered: " ++ n)) ∧
    ((addFileWithActive ci env st p a).err = none →
      ∃ n, (addFileWithActive ci env (addFileWithActive ci env st p a).st p b).err
        = some ("already registered: " ++ n)) ∧
    ((addFileWithActive ci env st p a).err ≠ none →
      (addFileWithActive ci env st p a).st = st ∧
      (addFileWithActive ci env st p a).msgs = []) := by
  refine ⟨?_, ?_, addFileWithActive_frame_of_err ci env st p a⟩
  · intro ⟨kv, hmem, heq⟩
    cases hf : findByRule ci st p with
    | none =>
      exfalso
      have : (findByRule ci st p).isSome := by
        unfold findByRule
        rw [List.find?_isSome]
        exact ⟨kv, hmem, heq⟩
      rw [hf] at this
      simp at this
    | some kv2 =>
      exact ⟨baseName kv2.1, by rw [addFileWithActive_of_found ci env st p a kv2 hf]⟩
  · intro hok
    obtain ⟨hf, m, html, hs, hr⟩ := addFileWithActive_err_none_inv ci env st p a hok
    have hfiles := (addFileWithActive_ok ci env st p a m html hf hs hr).2
    set st1 := (addFileWithActive ci env st p a).st with hst1
    have hmem : ((p,
        { path := p, name := baseName p, trackTime := env.now,
          lastChange := m, html := html, active := a, deleted := false }) :
        String × WatchedFile) ∈ st1.files := by
      rw [hfiles]
      exact List.mem_append_right _ (List.mem_singleton.mpr rfl)
    cases hf2 : findByRule ci st1 p with
    | none =>
      exfalso
      have : (findByRule ci st1 p).isSome := by
        unfold findByRule
        rw [List.find?_isSome]
        exact ⟨_, hmem, pathsEqual_refl ci p⟩
      rw [hf2] at this
      simp at this
    | some kv2 =>
      exact ⟨baseName kv2.1, by rw [addFileWithActive_of_found ci env st1 p b kv2 hf2]⟩

/-- Concrete run of C1: registering "a.md" into a registry that already holds
"A.md" fails under the case-insensitive rule, the failing call leaves the
registry unchanged with nothing broadcast, and a successful register of
"b.md" followed by a second register of "b.md" fails the second call. -/
theorem c1_register_duplicate_witness :
    (∃ n, (addFileWithActive true envOk stUpper "a.md" false).err
      = some ("already registered: " ++ n)) ∧
    ((addFileWithActive true envOk stUpper "a.md" false).st = stUpper ∧
      (addFileWithActive true envOk stUpper "a.md" false).msgs = []) ∧
    (∃ n, (addFileWithActive true envOk
        (addFileWithActive true envOk stUpper "b.md" true).st "b.md" false).err
      = some ("already registered: " ++ n)) := by
  refine ⟨?_, ?_, ?_⟩
  · exact (c1_register_duplicate_rejected_and_atomic true envOk stUpper "a.md" false false).1
      ⟨("A.md", wfUpper), by decide, by decide⟩
  · exact (c1_register_duplicate_rejected_and_atomic true envOk stUpper "a.md" false false).2.2
      (by decide)
  · exact (c1_register_duplicate_rejected_and_atomic true envOk stUpper "b.md" true false).2.1
      (by decide)

theorem find?_updateEntry (l : List (String × WatchedFile)) (p : String) (f : WatchedFile) :
    (updateEntry l p f).find? (fun kv => kv.1 = p)
      = (l.find? (fun kv => kv.1 = p)).map (fun _ => (p, f)) := by
  induction l with
  | nil => rfl
  | cons kv t ih =>
    unfold updateEntry at *
    rw [List.map_cons]
    by_cases h : kv.1 = p
    · rw [if_pos h]
      rw [List.find?_cons_of_pos _ (by simp), List.find?_cons_of_pos _ (by simp [h])]
      rfl
    · rw [if_neg h]
      rw [List.find?_cons_of_neg _ (by simp [h]), List.find?_cons_of_neg _ (by simp [h])]
      exact ih

theorem lookupFile_updateEntry (files : List (String × WatchedFile)) (w : List String)
    (p : String) (f : WatchedFile) :
    lookupFile { files := updateEntry files p f, watchers := w } p
      = (files.find? (fun kv => kv.1 = p)).map (fun _ => f) := by
  show ((updateEntry files p f).find? (fun kv => kv.1 = p)).map (fun kv => kv.2)
    = (files.find? (fun kv => kv.1 = p)).map (fun _ => f)
  rw [find?_updateEntry]
  cases files.find? (fun kv => kv.1 = p) <;> rfl

theorem lookupFile_startWatcherReg (st : RegState) (p q : String) :
    lookupFile (startWatcherReg st p) q = lookupFile st q := by
  unfold startWatcherReg
  split <;> rfl

/-- C10 (implicit): when the onChange callback fires for a path whose entry
has been removed from the registry or is no longer `Active` (a stale debounce
timer firing after deactivate or remove), the callback returns without
rendering, without mutating any entry, and without broadcasting: the registry
state is exactly unchanged. -/
theorem c10_stale_onchange_is_noop (env : Env) (st : RegState) (p : String)
    (h : (lookupFile st p).all (fun f => f.active = false) = true) :
    onFileChanged env st p = { st := st, msgs := [], rendered := false } := by
  unfold onFileChanged
  cases hl : lookupFile st p with
  | none => rfl
  | some f =>
    rw [hl] at h
    simp only [Option.all_some, decide_eq_true_eq] at h
    simp [h]

/-- Concrete run of C10: a stale onChange for a missing path and for a
registered-but-inactive path both leave the registry, broadcasts and renderer
untouched. -/
theorem c10_stale_onchange_witness :
    onFileChanged envOk stUpper "zzz.md" = { st := stUpper, msgs := [], rendered := false } ∧
    onFileChanged envOk stUpper "A.md" = { st := stUpper, msgs := [], rendered := false } := by
  constructor
  · exact c10_stale_onchange_is_noop envOk stUpper "zzz.md" (by decide)
  · exact c10_stale_onchange_is_noop envOk stUpper "A.md" (by decide)

theorem removeDeleted_empty (env : Env) (st : RegState)
    (h : st.files.filter (fun kv => kv.2.deleted) = []) :
    removeDeletedFiles env st = { count := 0, st := st, msgs := [] } := by
  obtain ⟨fs, ws⟩ := st
  simp only at h
  have hall : ∀ kv ∈ fs, kv.2.deleted = false := by
    intro kv hmem
    cases hd : kv.2.deleted with
    | false => rfl
    | true =>
      have hx : kv ∈ fs.filter (fun kv => kv.2.deleted) :=
        List.mem_filter.mpr ⟨hmem, by simp [hd]⟩
      rw [h] at hx
      simp at hx
  have hfiles : fs.filter (fun kv => kv.2.deleted = false) = fs :=
    List.filter_eq_self.mpr (fun kv hmem => by simp [hall kv hmem])
  have hw : ws.filter (fun q => decide (q ∉ ([] : List String))) = ws :=
    List.filter_eq_self.mpr (fun q _ => by simp)
  simp only [removeDeletedFiles, h, List.map_nil, List.length_nil]
  split
  · rw [hfiles, hw]
  · next hcond => exact absurd trivial hcond

/-- C8: `Hub.RemoveDeletedFiles` atomically removes exactly those entries
whose state is `Deleted` at the time of the call (entries in other states are
unchanged, keeping their values and relative order), returns the exact count
of entries removed, broadcasts exactly one aggregate file-list message when
the count is positive, and when nothing is `Deleted` returns 0, emits no
broadcast, and leaves the registry untouched. -/
theorem c8_remove_deleted_exact (env : Env) (st : RegState) :
    (removeDeletedFiles env st).count
      = (st.files.filter (fun kv => kv.2.deleted)).length ∧
    (removeDeletedFiles env st).st.files
      = st.files.filter (fun kv => kv.2.deleted = false) ∧
    ((removeDeletedFiles env st).count = 0 →
      (removeDeletedFiles env st).msgs = [] ∧ (removeDeletedFiles env st).st = st) ∧
    (0 < (removeDeletedFiles env st).count →
      (removeDeletedFiles env st).msgs.countP isFilesMsg = 1) := by
  by_cases h : st.files.filter (fun kv => kv.2.deleted) = []
  · rw [removeDeleted_empty env st h]
    have hall : ∀ kv ∈ st.files, kv.2.deleted = false := by
      intro kv hmem
      cases hd : kv.2.deleted with
      | false => rfl
      | true =>
        have hx : kv ∈ st.files.filter (fun kv => kv.2.deleted) :=
          List.mem_filter.mpr ⟨hmem, by simp [hd]⟩
        rw [h] at hx
        simp at hx
    refine ⟨by rw [h]; rfl, ?_, fun _ => ⟨rfl, rfl⟩, by intro hc; simp at hc⟩
    exact (List.filter_eq_self.mpr (fun kv hmem => by simp [hall kv hmem])).symm
  · have hlen : ¬ ((st.files.filter (fun kv => kv.2.deleted)).map (fun kv => kv.1)).length = 0 := by
      simpa [List.length_eq_zero] using h
    simp only [removeDeletedFiles]
    rw [if_neg hlen]
    refine ⟨List.length_map _ _, rfl, ?_, ?_⟩
    · intro hc
      simp only at hc
      exact absurd hc hlen
    · intro _
      simp [List.countP_cons, isFilesMsg]

/-- Concrete run of C8: on a registry with one `Deleted` and one live entry
the call removes exactly the deleted one, returns 1, keeps the live entry,
and broadcasts one file list; on a registry with nothing deleted it returns 0
with no broadcast and no change. -/
theorem c8_remove_deleted_witness :
    (removeDeletedFiles envOk stDeleted).st.files = [("a.md", wfActive)] ∧
    (removeDeletedFiles envOk stDeleted).count = 1 ∧
    (removeDeletedFiles envOk stDeleted).msgs.countP isFilesMsg = 1 ∧
    (removeDeletedFiles envOk stUpper).count = 0 ∧
    (removeDeletedFiles envOk stUpper).msgs = [] ∧
    (removeDeletedFiles envOk stUpper).st = stUpper := by
  refine ⟨?_, ?_, ?_, ?_, ?_, ?_⟩
  · rw [(c8_remove_deleted_exact envOk stDeleted).2.1]; decide
  · rw [(c8_remove_deleted_exact envOk stDeleted).1]; decide
  · exact (c8_remove_deleted_exact envOk stDeleted).2.2.2 (by decide)
  · rw [(c8_remove_deleted_exact envOk stUpper).1]; decide
  · exact ((c8_remove_deleted_exact envOk stUpper).2.2.1 (by decide)).1
  · exact ((c8_remove_deleted_exact envOk stUpper).2.2.1 (by decide)).2

/-- C4 counterexample: on a registry holding an active entry for "a.md" with
its live watcher, the on-delete callback leaves the watcher registered — the
hub still holds a live watcher for the path, so the watch binding is not torn
down as the claim states. -/
theorem c4_on_delete_watch_not_torn_down :
    (onFileDeleted envOk stActive "a.md").st.watchers = ["a.md"] ∧
    "a.md" ∈ (onFileDeleted envOk stActive "a.md").st.watchers := by decide

/-- C4 (amended): when the on-delete callback fires for a registered path the
entry becomes `Deleted` with `active = false`, its rendered HTML is left
unchanged as the last-known render, and exactly one full file-list broadcast
is emitted without invoking the renderer — but the watch binding is NOT torn
down: the watchers map is left exactly unchanged, so the hub still holds the
watcher for the path. -/
theorem c4_on_delete_marks_entry_keeps_watcher (env : Env) (st : RegState)
    (p : String) (f : WatchedFile) (h : lookupFile st p = some f) :
    (∃ f1, lookupFile (onFileDeleted env st p).st p = some f1 ∧
      f1.deleted = true ∧ f1.active = false ∧ f1.html = f.html) ∧
    (onFileDeleted env st p).st.watchers = st.watchers ∧
    (onFileDeleted env st p).msgs.countP isFilesMsg = 1 ∧
    (onFileDeleted env st p).rendered = false := by
  unfold onFileDeleted
  rw [h]
  refine ⟨⟨{ f with deleted := true, active := false }, ?_, rfl, rfl, rfl⟩, rfl, ?_, rfl⟩
  · rw [lookupFile_updateEntry]
    cases hq : st.files.find? (fun kv => kv.1 = p) with
    | none =>
      exfalso
      unfold lookupFile at h
      rw [hq] at h
      simp at h
    | some kv => rfl
  · simp [List.countP_cons, isFilesMsg]

/-- Concrete run of the amended C4 at the active entry "a.md". -/
theorem c4_on_delete_witness :
    (∃ f1, lookupFile (onFileDeleted envOk stActive "a.md").st "a.md" = some f1 ∧
      f1.deleted = true ∧ f1.active = false ∧ f1.html = wfActive.html) ∧
    (onFileDeleted envOk stActive "a.md").st.watchers = stActive.watchers ∧
    (onFileDeleted envOk stActive "a.md").msgs.countP isFilesMsg = 1 ∧
    (onFileDeleted envOk stActive "a.md").rendered = false :=
  c4_on_delete_marks_entry_keeps_watcher envOk stActive "a.md" wfActive (by decide)

/-- C3 counterexample: starting from a registry whose entry "d.md" is in
`Deleted` state (inactive), a plain `ActivateFile` call with a succeeding
renderer leaves the entry simultaneously `Active` and `Deleted` — so a
registry API call does make a `Deleted` entry `Active`, and the three
lifecycle states are not mutually exclusive. -/
theorem c3_deleted_entry_reactivated :
    (lookupFile (activateFile false envOk stDeleted "d.md").st "d.md").any
      (fun f => f.active && f.deleted) = true := by decide

/-- C3 (amended): registration always creates its new entry with
`Deleted = false`; the delete callback clears `Active` whenever it sets
`Deleted`; but `ActivateFile` does not examine `Deleted`: on a `Deleted`
(inactive) entry whose render succeeds the call succeeds, makes the entry
`Active`, and leaves `Deleted` set — only the filesystem-recreation path
(the onChange callback) clears `Deleted`. -/
theorem c3_lifecycle_amended (ci : Bool) (env : Env) (st : RegState)
    (p ap : String) (f : WatchedFile) (html : String) :
    ((addFileWithActive ci env st p true).err = none →
      ∃ g, (addFileWithActive ci env st p true).st.files = st.files ++ [(p, g)] ∧
        g.deleted = false) ∧
    (lookupFile st p = some f →
      ∃ f1, lookupFile (onFileDeleted env st p).st p = some f1 ∧
        f1.deleted = true ∧ f1.active = false) ∧
    (findByRule ci st p = some (ap, f) → f.active = false → f.deleted = true →
      env.render ap = Except.ok html →
      (activateFile ci env st p).err = none ∧
      ∃ f1, lookupFile (activateFile ci env st p).st ap = some f1 ∧
        f1.active = true ∧ f1.deleted = true) := by
  refine ⟨?_, ?_, ?_⟩
  · intro hok
    obtain ⟨hf, m, html2, hs, hr⟩ := addFileWithActive_err_none_inv ci env st p true hok
    exact ⟨_, (addFileWithActive_ok ci env st p true m html2 hf hs hr).2, rfl⟩
  · intro hl
    unfold onFileDeleted
    rw [hl]
    refine ⟨{ f with deleted := true, active := false }, ?_, rfl, rfl⟩
    rw [lookupFile_updateEntry]
    cases hq : st.files.find? (fun kv => kv.1 = p) with
    | none =>
      exfalso
      unfold lookupFile at hl
      rw [hq] at hl
      simp at hl
    | some kv => rfl
  · intro hfind hact hdel hr
    simp only [activateFile, hfind, hact, hr, Bool.false_eq_true, if_false]
    refine ⟨trivial, ?_⟩
    refine ⟨{ f with html := html, lastChange := (env.statMod ap).getD 0, active := true },
      ?_, rfl, hdel⟩
    rw [lookupFile_startWatcherReg, lookupFile_updateEntry]
    cases hq : st.files.find? (fun kv => kv.1 = ap) with
    | none =>
      exfalso
      have hmem : (ap, f) ∈ st.files := List.mem_of_find?_eq_some hfind
      have : (st.files.find? (fun kv => kv.1 = ap)).isSome := by
        rw [List.find?_isSome]
        exact ⟨(ap, f), hmem, by simp⟩
      rw [hq] at this
      simp at this
    | some kv => rfl

/-- Concrete runs of the amended C3: a fresh register is not `Deleted`; the
delete callback deactivates; activating the `Deleted` entry "d.md" succeeds
and leaves it `Active` and `Deleted` at once. -/
theorem c3_lifecycle_witness :
    (∃ g, (addFileWithActive false envOk stUpper "b.md" true).st.files
      = stUpper.files ++ [("b.md", g)] ∧ g.deleted = false) ∧
    (∃ f1, lookupFile (onFileDeleted envOk stActive "a.md").st "a.md" = some f1 ∧
      f1.deleted = true ∧ f1.active = false) ∧
    ((activateFile false envOk stDeleted "d.md").err = none ∧
      ∃ f1, lookupFile (activateFile false envOk stDeleted "d.md").st "d.md" = some f1 ∧
        f1.active = true ∧ f1.deleted = true) := by
  refine ⟨?_, ?_, ?_⟩
  · exact (c3_lifecycle_amended false envOk stUpper "b.md" "b.md" wfUpper "x").1 (by decide)
  · exact (c3_lifecycle_amended false envOk stActive "a.md" "a.md" wfActive "x").2.1 (by decide)
  · exact (c3_lifecycle_amended false envOk stDeleted "d.md" "d.md" wfDeleted
      "<p>d.md</p>").2.2 (by decide) rfl rfl rfl

/-- C5 counterexample: `Watcher.Close` closes the `done` channel and the
fsnotify watcher but stops neither the timer armed by `debounce` nor the
Remove handler sleeping through its 300 ms grace period. From an idle open
watcher: a write then `Close` leaves a closed state with a pending timer
whose elapse fires the on-change callback after close; a Remove then `Close`
leaves the handler in flight, and when its sleep ends it fires the on-delete
callback (file absent) or arms a new debounce timer after close whose elapse
fires the on-change callback (file back). So the claim that after `Close()`
any pending timer is cancelled and no callback ever fires again is false. -/
theorem c5_callback_fires_after_close :
    ((wRun2 { closed := false, pending := false, subscribed := true, inRemove := false }
        [WEvent2.rawWrite, WEvent2.doClose]).1.closed = true ∧
      (wRun2 { closed := false, pending := false, subscribed := true, inRemove := false }
        [WEvent2.rawWrite, WEvent2.doClose]).1.pending = true ∧
      (wStep2 (wRun2
          { closed := false, pending := false, subscribed := true, inRemove := false }
          [WEvent2.rawWrite, WEvent2.doClose]).1
        WEvent2.timerElapse).2 = [WFire.change]) ∧
    (wRun2 { closed := false, pending := false, subscribed := true, inRemove := false }
        [WEvent2.rawRemoveStart, WEvent2.doClose, WEvent2.graceElapse false]).2
      = [WFire.delete] ∧
    (wRun2 { closed := false, pending := false, subscribed := true, inRemove := false }
        [WEvent2.rawRemoveStart, WEvent2.doClose, WEvent2.graceElapse true,
          WEvent2.timerElapse]).2 = [WFire.change] := by
  decide

theorem wRun2_closed_fires_bound (es : List WEvent2) : ∀ s : WState2, s.closed = true →
    (wRun2 s es).2.length
      ≤ (if s.pending = true then 1 else 0) + (if s.inRemove = true then 1 else 0) := by
  induction es with
  | nil =>
    intro s _
    simp [wRun2]
  | cons e t ih =>
    intro s h
    cases e with
    | rawWrite =>
      have hs : wStep2 s WEvent2.rawWrite = (s, []) := by simp [wStep2, h]
      simp only [wRun2, hs]
      simpa using ih s h
    | rawRemoveStart =>
      have hs : wStep2 s WEvent2.rawRemoveStart = (s, []) := by simp [wStep2, h]
      simp only [wRun2, hs]
      simpa using ih s h
    | graceElapse b =>
      by_cases hr : s.inRemove = true
      · cases b with
        | true =>
          have hs : wStep2 s (WEvent2.graceElapse true)
              = ({ s with
                    inRemove := false, pending := true,
                    subscribed := if s.closed then s.subscribed else true }, []) := by
            simp [wStep2, hr]
          simp only [wRun2, hs, List.nil_append]
          rw [if_pos hr]
          refine le_trans ?_ (Nat.le_add_left 1 _)
          simpa using ih { s with
            inRemove := false, pending := true,
            subscribed := if s.closed then s.subscribed else true } h
        | false =>
          have hs : wStep2 s (WEvent2.graceElapse false)
              = ({ s with inRemove := false }, [WFire.delete]) := by
            simp [wStep2, hr]
          simp only [wRun2, hs, List.singleton_append, List.length_cons]
          rw [if_pos hr]
          have h2 : (wRun2 { s with inRemove := false } t).2.length
              ≤ (if s.pending = true then 1 else 0) := by
            simpa using ih { s with inRemove := false } h
          exact Nat.add_le_add_right h2 1
      · have hs : wStep2 s (WEvent2.graceElapse b) = (s, []) := by simp [wStep2, hr]
        simp only [wRun2, hs]
        simpa using ih s h
    | timerElapse =>
      by_cases hp : s.pending = true
      · have hs : wStep2 s WEvent2.timerElapse
            = ({ s with pending := false }, [WFire.change]) := by simp [wStep2, hp]
        simp only [wRun2, hs, List.singleton_append, List.length_cons]
        rw [if_pos hp, Nat.add_comm 1]
        have h2 : (wRun2 { s with pending := false } t).2.length
            ≤ (if s.inRemove = true then 1 else 0) := by
          simpa using ih { s with pending := false } h
        exact Nat.add_le_add_right h2 1
      · have hs : wStep2 s WEvent2.timerElapse = (s, []) := by simp [wStep2, hp]
        simp only [wRun2, hs]
        simpa using ih s h
    | doClose =>
      have hs : wStep2 s WEvent2.doClose
          = ({ s with closed := true, subscribed := false }, []) := by simp [wStep2]
      simp only [wRun2, hs]
      simpa using ih { s with closed := true, subscribed := false } rfl

/-- C5 (amended): `Close` stops the event loop — after it no raw notification
is processed, so no new grace sleep starts — but it cancels nothing already
in flight: a debounce timer pending at close still fires its on-change
callback once, and a Remove handler already inside its 300 ms grace sleep
still completes after close, firing the on-delete callback when the file is
absent, or arming a fresh debounce timer (whose on-change callback then
fires) when the file is back. Over any schedule after close, at most one
callback from the pending timer plus one from the in-flight remove handler
fire. -/
theorem c5_close_cancels_nothing_in_flight (s : WState2) (h : s.closed = true)
    (es : List WEvent2) :
    (wStep2 s WEvent2.rawWrite = (s, []) ∧ wStep2 s WEvent2.rawRemoveStart = (s, [])) ∧
    (s.inRemove = true →
      wStep2 s (WEvent2.graceElapse false)
        = ({ s with inRemove := false }, [WFire.delete]) ∧
      (wStep2 s (WEvent2.graceElapse true)).1.pending = true) ∧
    (wRun2 s es).2.length
      ≤ (if s.pending = true then 1 else 0) + (if s.inRemove = true then 1 else 0) := by
  refine ⟨⟨by simp [wStep2, h], by simp [wStep2, h]⟩, ?_,
    wRun2_closed_fires_bound es s h⟩
  intro hr
  constructor
  · simp [wStep2, hr]
  · simp [wStep2, hr]

/-- Concrete runs of the amended C5: a watcher closed with a pending timer
and an in-flight remove handler ignores raw events, still delivers the
handler's delete callback, and fires at most two callbacks over a schedule
that lets both the timer and the handler complete. -/
theorem c5_close_witness :
    (wStep2 { closed := true, pending := true, subscribed := false, inRemove := true }
        WEvent2.rawWrite
      = ({ closed := true, pending := true, subscribed := false, inRemove := true }, [])) ∧
    (wStep2 { closed := true, pending := true, subscribed := false, inRemove := true }
        (WEvent2.graceElapse false)
      = ({ closed := true, pending := true, subscribed := false, inRemove := false },
          [WFire.delete])) ∧
    (wRun2 { closed := true, pending := true, subscribed := false, inRemove := true }
        [WEvent2.timerElapse, WEvent2.graceElapse false, WEvent2.timerElapse]).2.length
      ≤ 2 := by
  refine ⟨?_, ?_, ?_⟩
  · exact (c5_close_cancels_nothing_in_flight
      { closed := true, pending := true, subscribed := false, inRemove := true }
      rfl []).1.1
  · exact ((c5_close_cancels_nothing_in_flight
      { closed := true, pending := true, subscribed := false, inRemove := true }
      rfl []).2.1 rfl).1
  · have h := (c5_close_cancels_nothing_in_flight
      { closed := true, pending := true, subscribed := false, inRemove := true } rfl
      [WEvent2.timerElapse, WEvent2.graceElapse false, WEvent2.timerElapse]).2.2
    simpa using h

/-- C6: a raw Remove notification whose 300 ms grace re-check finds the file
existing again produces zero delete callbacks, re-subscribes to the path, and
yields exactly one debounced change callback once the timer elapses; a raw
Remove notification with the file still absent after the grace period invokes
the on-delete callback exactly once. -/
theorem c6_remove_grace_check (s : WState) (hc : s.closed = false)
    (hp : s.pending = false) :
    (wRun s [WEvent.rawRemove true, WEvent.timerElapse]).2 = [WFire.change] ∧
    ((wRun s [WEvent.rawRemove true, WEvent.timerElapse]).1).subscribed = true ∧
    WFire.delete ∉ (wRun s [WEvent.rawRemove true, WEvent.timerElapse]).2 ∧
    (wStep s (WEvent.rawRemove false)).2 = [WFire.delete] := by
  have h1 : wStep s (WEvent.rawRemove true)
      = ({ s with subscribed := true, pending := true }, []) := by
    simp [wStep, hc]
  have h2 : wStep { s with subscribed := true, pending := true } WEvent.timerElapse
      = ({ s with subscribed := true, pending := false }, [WFire.change]) := by
    simp [wStep]
  refine ⟨?_, ?_, ?_, by simp [wStep, hc]⟩ <;> simp [wRun, h1, h2]

/-- Concrete run of C6 from an idle open watcher. -/
theorem c6_remove_grace_witness :
    (wRun { closed := false, pending := false, subscribed := true }
        [WEvent.rawRemove true, WEvent.timerElapse]).2 = [WFire.change] ∧
    (wStep { closed := false, pending := false, subscribed := true }
        (WEvent.rawRemove false)).2 = [WFire.delete] :=
  ⟨(c6_remove_grace_check { closed := false, pending := false, subscribed := true }
      rfl rfl).1,
   (c6_remove_grace_check { closed := false, pending := false, subscribed := true }
      rfl rfl).2.2.2⟩

theorem wRun_pending_burst (k : Nat) : ∀ s : WState, s.closed = false →
    s.pending = true →
    wRun s (List.replicate k WEvent.rawWrite ++ [WEvent.timerElapse])
      = ({ s with pending := false }, [WFire.change]) := by
  induction k with
  | zero =>
    intro s hc hp
    simp [wRun, wStep, hp]
  | succ k ih =>
    intro s hc hp
    have hs : wStep s WEvent.rawWrite = ({ s with pending := true }, []) := by
      simp [wStep, hc]
    simp only [List.replicate_succ, List.cons_append, wRun, hs, List.append_eq]
    rw [ih { s with pending := true } hc rfl]
    simp

/-- C7: a burst of N ≥ 1 raw modification notifications, each within the
100 ms quiet period of the previous one, produces exactly one on-change
callback once the timer elapses with no further notification; and one
invocation of the bound onChange callback on an Active entry with a
succeeding renderer performs exactly one render and broadcasts exactly one
single-entry update message. -/
theorem c7_burst_single_fire_single_update (s : WState) (hc : s.closed = false)
    (hp : s.pending = false) (n : Nat) (hn : 1 ≤ n) (env : Env) (st : RegState)
    (p : String) (f : WatchedFile) (html : String) (hl : lookupFile st p = some f)
    (ha : f.active = true) (hr : env.render p = Except.ok html) :
    (wRun s (List.replicate n WEvent.rawWrite ++ [WEvent.timerElapse])).2
      = [WFire.change] ∧
    (onFileChanged env st p).rendered = true ∧
    (onFileChanged env st p).msgs.countP isUpdateMsg = 1 := by
  refine ⟨?_, ?_, ?_⟩
  · obtain ⟨k, rfl⟩ : ∃ k, n = k + 1 := ⟨n - 1, by omega⟩
    have hs : wStep s WEvent.rawWrite = ({ s with pending := true }, []) := by
      simp [wStep, hc]
    simp only [List.replicate_succ, List.cons_append, wRun, hs, List.append_eq]
    rw [wRun_pending_burst k { s with pending := true } hc rfl]
    simp
  · simp only [onFileChanged, hl, ha, hr, Bool.true_eq_false, if_false]
  · simp only [onFileChanged, hl, ha, hr, Bool.true_eq_false, if_false]
    simp [List.countP_cons, isUpdateMsg]

/-- Concrete run of C7: a burst of three writes then the quiet period fires
once; the onChange callback on the active entry "a.md" renders once and
broadcasts one update. -/
theorem c7_burst_witness :
    (wRun { closed := false, pending := false, subscribed := true }
        (List.replicate 3 WEvent.rawWrite ++ [WEvent.timerElapse])).2
      = [WFire.change] ∧
    (onFileChanged envOk stActive "a.md").rendered = true ∧
    (onFileChanged envOk stActive "a.md").msgs.countP isUpdateMsg = 1 :=
  c7_burst_single_fire_single_update
    { closed := false, pending := false, subscribed := true } rfl rfl 3 (by omega)
    envOk stActive "a.md" wfActive "<p>a.md</p>" (by decide) rfl rfl

theorem publishStep_characterization (m : Msg) (ss : List Session) :
    (publishStep m ss).1 = (ss.filter (fun s => s.queue.length < s.cap)).map
        (fun s => { s with queue := s.queue ++ [m] }) ∧
    (publishStep m ss).2 = (ss.filter (fun s => ¬ s.queue.length < s.cap)).map
        (fun s => { s with closedQ := true }) := by
  induction ss with
  | nil => exact ⟨rfl, rfl⟩
  | cons s rest ih =>
    simp only [publishStep]
    by_cases hq : s.queue.length < s.cap
    · rw [if_pos hq]
      constructor
      · rw [List.filter_cons_of_pos (by simpa using hq), List.map_cons]
        exact congrArg _ ih.1
      · rw [List.filter_cons_of_neg (by simpa using hq)]
        exact ih.2
    · rw [if_neg hq]
      constructor
      · rw [List.filter_cons_of_neg (by simpa using hq)]
        exact ih.1
      · rw [List.filter_cons_of_pos (by simpa using hq), List.map_cons]
        exact congrArg _ ih.2

theorem publishAll_survivor (ms : List Msg) : ∀ (ss : List Session) (s : Session),
    s ∈ ss → s.queue.length + ms.length ≤ s.cap →
    { s with queue := s.queue ++ ms } ∈ publishAll ss ms := by
  induction ms with
  | nil =>
    intro ss s hmem _
    simpa [publishAll] using hmem
  | cons m t ih =>
    intro ss s hmem hcap
    have hroom : s.queue.length < s.cap := by
      simp only [List.length_cons] at hcap
      omega
    have hmem1 : { s with queue := s.queue ++ [m] } ∈ (publishStep m ss).1 := by
      rw [(publishStep_characterization m ss).1]
      exact List.mem_map_of_mem _ (List.mem_filter.mpr ⟨hmem, by simpa using hroom⟩)
    have h2 := ih (publishStep m ss).1 { s with queue := s.queue ++ [m] } hmem1
      (by simp only [List.length_append, List.length_cons, List.length_nil,
        List.length_singleton] at hcap ⊢; omega)
    simp only [publishAll]
    have h3 : ({ s with queue := s.queue ++ m :: t } : Session)
        = { s with queue := (s.queue ++ [m]) ++ t } := by
      simp
    rw [h3]
    exact h2

/-- C2: when the Broadcast Hub processes a publish, every session whose
bounded queue is full is closed and removed from the set (its queue contents
unchanged — it receives no further messages once out of the set), while every
session with room stays, in order, with the message appended at the tail of
its queue; and a session that has room for a whole sequence of publishes
receives all of them appended in publish order (FIFO per session). -/
theorem c2_publish_drops_full_delivers_rest (m : Msg) (ss : List Session) :
    (publishStep m ss).1 = (ss.filter (fun s => s.queue.length < s.cap)).map
        (fun s => { s with queue := s.queue ++ [m] }) ∧
    (publishStep m ss).2 = (ss.filter (fun s => ¬ s.queue.length < s.cap)).map
        (fun s => { s with closedQ := true }) ∧
    (∀ s ∈ ss, ∀ ms : List Msg, s.queue.length + (m :: ms).length ≤ s.cap →
      { s with queue := s.queue ++ m :: ms } ∈ publishAll ss (m :: ms)) := by
  refine ⟨(publishStep_characterization m ss).1, (publishStep_characterization m ss).2, ?_⟩
  intro s hmem ms hcap
  exact publishAll_survivor (m :: ms) ss s hmem hcap

/-- Concrete run of C2: publishing to one full and one free session drops and
closes the full one (queue untouched) and delivers to the free one; two
publishes reach the surviving session in order. -/
theorem c2_publish_witness :
    (publishStep m0 [sessFull, sessOk]).1 = [{ sessOk with queue := [m0] }] ∧
    (publishStep m0 [sessFull, sessOk]).2 = [{ sessFull with closedQ := true }] ∧
    ({ sessOk with queue := [m0, m1] } ∈ publishAll [sessFull, sessOk] [m0, m1]) := by
  refine ⟨?_, ?_, ?_⟩
  · rw [(c2_publish_drops_full_delivers_rest m0 [sessFull, sessOk]).1]
    decide
  · rw [(c2_publish_drops_full_delivers_rest m0 [sessFull, sessOk]).2.1]
    decide
  · have h := (c2_publish_drops_full_delivers_rest m0 [sessFull, sessOk]).2.2
      sessOk (by decide) [m1] (by decide)
    simpa [sessOk] using h

theorem hubRun_publish_map (files : List WatchedFile) (logs : List LogEntry) :
    ∀ (ms : List Msg) (ss : List Session),
    hubRun files logs ss (ms.map HReq.publish) = publishAll ss ms := by
  intro ms
  induction ms with
  | nil => intro ss; rfl
  | cons m t ih =>
    intro ss
    simp only [List.map_cons, hubRun, hubStep, publishAll]
    exact ih _

/-- C9: when a session joins the Broadcast Hub it is added to the session set
and immediately sent the full snapshot read at join-processing time — the
current file list followed by the full log history — and, provided its queue
has room, every message published after the join is processed is delivered to
it as well, after the snapshot and in publish order: no missed-update window
between snapshot and live updates. -/
theorem c9_join_snapshot_then_all_updates (files : List WatchedFile)
    (logs : List LogEntry) (ss : List Session) (sid cp : Nat) (ms : List Msg)
    (hcap : 2 + ms.length ≤ cp) :
    ({ sid := sid, queue := [Msg.files files, Msg.logAll logs] ++ ms,
       cap := cp, closedQ := false } : Session) ∈
      hubRun files logs ss (HReq.join sid cp :: ms.map HReq.publish) := by
  have h1 : hubRun files logs ss (HReq.join sid cp :: ms.map HReq.publish)
      = publishAll (ss ++
          [{ sid := sid, queue := [Msg.files files, Msg.logAll logs],
             cap := cp, closedQ := false }]) ms := by
    simp only [hubRun, hubStep]
    exact hubRun_publish_map files logs ms _
  rw [h1]
  have h2 := publishAll_survivor ms
    (ss ++
      [{ sid := sid, queue := [Msg.files files, Msg.logAll logs],
         cap := cp, closedQ := false }])
    { sid := sid, queue := [Msg.files files, Msg.logAll logs], cap := cp, closedQ := false }
    (List.mem_append_right _ (List.mem_singleton.mpr rfl))
    (by simpa using hcap)
  simpa using h2

/-- Concrete run of C9: a session joining an empty hub receives the file-list
snapshot, the log history, then both later publishes, in that order. -/
theorem c9_join_witness :
    ({ sid := 9, queue := [Msg.files [wfActive], Msg.logAll []] ++ [m0, m1],
       cap := 8, closedQ := false } : Session) ∈
      hubRun [wfActive] [] [] (HReq.join 9 8 :: [m0, m1].map HReq.publish) :=
  c9_join_snapshot_then_all_updates [wfActive] [] [] 9 8 [m0, m1] (by decide)
